import Mathlib

/-!
Verification of the macaroni workout-tracking data layer (`backend.py`).

The three pandas DataFrames are embedded as Lean lists of records, floats as
exact rationals, pandas `NaN`/`NaT` join artifacts as `Option` values, and the
pandas timestamp type as a calendar date record.  Every definition below is a
direct translation of the corresponding function in `src/backend.py`; the
handful of definitions written from the specification's wording instead of the
source (for refinement comparisons) carry a `spec` marker in their name and
doc comment.
-/

deriving instance DecidableEq for Except

namespace Macaroni

/-- Calendar date, standing in for the pandas timestamp produced by
`pd.to_datetime` (the backend only ever stores whole dates). -/
structure Date where
  year : Nat
  month : Nat
  day : Nat
deriving DecidableEq

/-- Row of the `sessions` table. -/
structure Session where
  session_id : Int
  date : Date
  group : String
  notes : String
deriving DecidableEq

/-- Row of the `exercises` table. -/
structure Exercise where
  exercise_id : Int
  session_id : Int
  exercise_name : String
  muscle : String
  group : String
deriving DecidableEq

/-- Row of the `sets` table. -/
structure SetRow where
  set_id : Int
  exercise_id : Int
  set_number : Int
  weight : Rat
  reps : Int
  rir : Option Int
  comments : String
deriving DecidableEq

/-- Maximum of a list of integers (`df[id_col].max()`); the `0` default is
unreachable because `_next_id` guards the empty case first. -/
def intMax : List Int → Int
  | [] => 0
  | x :: xs => xs.foldl max x

/-- Embedding of `_next_id(df, id_col)`: `1` on an empty table, else `max(df[id_col]) + 1`.
The id column is abstracted as a projection out of the row type. -/
def _next_id {α : Type} (df : List α) (f : α → Int) : Int :=
  if df.isEmpty then 1 else intMax (df.map f) + 1

/-- Embedding of `add_session`: allocate an id and append one row; returns the new
snapshot and the id. -/
def add_session (sessions : List Session) (date : Date) (group : String)
    (notes : String := "") : List Session × Int :=
  let session_id := _next_id sessions Session.session_id
  (sessions ++ [{ session_id := session_id, date := date, group := group,
                  notes := notes }], session_id)

/-- Embedding of `add_exercise`: allocate an id and append one row, defaulting the optional
`muscle`/`group` to the empty string. -/
def add_exercise (exercises : List Exercise) (session_id : Int)
    (exercise_name : String) (muscle : Option String := none)
    (group : Option String := none) : List Exercise × Int :=
  let exercise_id := _next_id exercises Exercise.exercise_id
  (exercises ++ [{ exercise_id := exercise_id, session_id := session_id,
                   exercise_name := exercise_name,
                   muscle := muscle.getD "",
                   group := group.getD "" }], exercise_id)

/-- Embedding of `add_set`: allocate an id and append one row. -/
def add_set (sets : List SetRow) (exercise_id : Int) (set_number : Int)
    (weight : Rat) (reps : Int) (rir : Option Int := none)
    (comments : String := "") : List SetRow :=
  let set_id := _next_id sets SetRow.set_id
  sets ++ [{ set_id := set_id, exercise_id := exercise_id,
             set_number := set_number, weight := weight, reps := reps,
             rir := rir, comments := comments }]

/-- Embedding of `quick_log_set`: find-or-create the session for (date, day_group), then the
exercise for (session_id, exercise_name), then append the set.  `List.find?`
mirrors `df.loc[mask].iloc[0]` (first matching row wins). -/
def quick_log_set (sessions : List Session) (exercises : List Exercise)
    (sets : List SetRow) (date : Date) (day_group : String)
    (exercise_name : String) (set_number : Int) (weight : Rat) (reps : Int)
    (rir : Option Int := none) (muscle : Option String := none) :
    List Session × List Exercise × List SetRow :=
  let found := sessions.find? fun s => s.date == date && s.group == day_group
  let sessionsAndId : List Session × Int :=
    match found with
    | some s => (sessions, s.session_id)
    | none => add_session sessions date day_group
  let sessions' := sessionsAndId.1
  let session_id := sessionsAndId.2
  let foundEx := exercises.find? fun e =>
    e.session_id == session_id && e.exercise_name == exercise_name
  let exercisesAndId : List Exercise × Int :=
    match foundEx with
    | some e => (exercises, e.exercise_id)
    | none => add_exercise exercises session_id exercise_name muscle
        (some day_group)
  let exercises' := exercisesAndId.1
  let exercise_id := exercisesAndId.2
  let sets' := add_set sets exercise_id set_number weight reps rir
  (sessions', exercises', sets')

/-! ### Calendar helpers

`pandas` supplies `.dt.isocalendar().week`, `.dt.isocalendar().year` and
`.dt.year`; they are reproduced here with the standard ISO-8601 week
algorithm so that the analytics embedding stays executable. -/

/-- Gregorian leap-year test. -/
def Date.isLeap (y : Nat) : Bool :=
  (y % 4 == 0 && y % 100 != 0) || y % 400 == 0

/-- Days in the months before month `m` (1-based) of year `y`. -/
def Date.daysBeforeMonth (y m : Nat) : Nat :=
  let cum := if Date.isLeap y then
    [0, 31, 60, 91, 121, 152, 182, 213, 244, 274, 305, 335]
  else
    [0, 31, 59, 90, 120, 151, 181, 212, 243, 273, 304, 334]
  cum.getD (m - 1) 0

/-- Ordinal day of the year (1 = January 1st). -/
def Date.dayOfYear (d : Date) : Nat :=
  Date.daysBeforeMonth d.year d.month + d.day

/-- Day of the week by Sakamoto's method, `0` = Sunday … `6` = Saturday. -/
def Date.sakamoto (d : Date) : Nat :=
  let t := [0, 3, 2, 5, 0, 3, 5, 1, 4, 6, 2, 4]
  let y := if d.month < 3 then d.year - 1 else d.year
  (y + y / 4 - y / 100 + y / 400 + t.getD (d.month - 1) 0 + d.day) % 7

/-- ISO day of the week, `1` = Monday … `7` = Sunday. -/
def Date.isoDow (d : Date) : Nat :=
  if d.sakamoto = 0 then 7 else d.sakamoto

/-- Number of ISO weeks (52 or 53) in year `y`. -/
def Date.weeksInYear (y : Nat) : Nat :=
  let p := fun z => (z + z / 4 - z / 100 + z / 400) % 7
  if p y = 4 || p (y - 1) = 3 then 53 else 52

/-- ISO-8601 week number, as `pandas` `.dt.isocalendar().week`. -/
def Date.isoWeek (d : Date) : Nat :=
  let w := (d.dayOfYear + 10 - d.isoDow) / 7
  if w = 0 then Date.weeksInYear (d.year - 1)
  else if Date.weeksInYear d.year < w then 1
  else w

/-- ISO-8601 week-based year, as `pandas` `.dt.isocalendar().year`.  The
backend does NOT use it (it reads `.dt.year`); it is needed to state the
specification's "ISO year" wording. -/
def Date.isoYear (d : Date) : Nat :=
  let w := (d.dayOfYear + 10 - d.isoDow) / 7
  if w = 0 then d.year - 1
  else if Date.weeksInYear d.year < w then d.year + 1
  else d.year

/-! ### The joined view (`_joined_sets`) -/

/-- One row of the denormalized view produced by `_joined_sets`.  The set
columns are always present; the exercise and session columns are `Option`s
because a left join leaves them `NaN` when the foreign key does not resolve.
Column-name quirk from the source: after the two merges the surviving
`group` column is the EXERCISE's group, and the final rename turns it into
`session_group`, while the session's own group was suffixed to `group_sess`. -/
structure Joined where
  set_id : Int
  exercise_id : Int
  set_number : Int
  weight : Rat
  reps : Int
  rir : Option Int
  comments : String
  session_id : Option Int
  exercise_name : Option String
  muscle : Option String
  session_group : Option String
  session_date : Option Date
  group_sess : Option String
  notes : Option String
deriving DecidableEq

/-- Assemble one joined row out of a set row and its (possibly missing)
exercise and session matches. -/
def mkJoined (st : SetRow) (oex : Option Exercise) (osess : Option Session) :
    Joined :=
  { set_id := st.set_id, exercise_id := st.exercise_id,
    set_number := st.set_number, weight := st.weight, reps := st.reps,
    rir := st.rir, comments := st.comments,
    session_id := oex.map Exercise.session_id,
    exercise_name := oex.map Exercise.exercise_name,
    muscle := oex.map Exercise.muscle,
    session_group := oex.map Exercise.group,
    session_date := osess.map Session.date,
    group_sess := osess.map Session.group,
    notes := osess.map Session.notes }

/-- Embedding of `sets.merge(exercises, on="exercise_id", how="left")`: every set row
survives; a row is emitted per matching exercise, or once with missing
exercise columns when there is no match. -/
def merge_sets_exercises : List SetRow → List Exercise →
    List (SetRow × Option Exercise)
  | [], _ => []
  | st :: rest, exercises =>
      (match exercises.filter (fun e => e.exercise_id == st.exercise_id) with
       | [] => [(st, none)]
       | es => es.map fun e => (st, some e)) ++
      merge_sets_exercises rest exercises

/-- Embedding of `.merge(sessions, on="session_id", how="left")` on the result of the
first merge: the left key is the exercise's `session_id` (missing when the
exercise did not match, in which case no session can match). -/
def merge_with_sessions : List (SetRow × Option Exercise) → List Session →
    List Joined
  | [], _ => []
  | p :: rest, sessions =>
      (match sessions.filter
          (fun s => some s.session_id == p.2.map Exercise.session_id) with
       | [] => [mkJoined p.1 p.2 none]
       | ss => ss.map fun s => mkJoined p.1 p.2 (some s)) ++
      merge_with_sessions rest sessions

/-- Embedding of `_joined_sets`: sets left-joined to exercises, then to sessions (the
column renaming is reflected in the `Joined` field names). -/
def _joined_sets (sessions : List Session) (exercises : List Exercise)
    (sets : List SetRow) : List Joined :=
  merge_with_sessions (merge_sets_exercises sets exercises) sessions

/-! ### Orders used by `sort_values` and `groupby` -/

/-- Lexicographic order on dates (chronological order for calendar dates). -/
abbrev Date.le (a b : Date) : Prop :=
  a.year < b.year ∨ (a.year = b.year ∧
    (a.month < b.month ∨ (a.month = b.month ∧ a.day ≤ b.day)))

/-- Strict version of `Date.le`. -/
abbrev Date.lt (a b : Date) : Prop :=
  a.year < b.year ∨ (a.year = b.year ∧
    (a.month < b.month ∨ (a.month = b.month ∧ a.day < b.day)))

/-- Order on the nullable `session_date` column: `NaT` sorts last
(`na_position="last"`). -/
abbrev optDateLe (a b : Option Date) : Prop :=
  match a, b with
  | _, none => True
  | none, some _ => False
  | some a, some b => Date.le a b

/-- Strict version of `optDateLe`. -/
abbrev optDateLt (a b : Option Date) : Prop :=
  match a, b with
  | none, _ => False
  | some _, none => True
  | some a, some b => Date.lt a b

instance : DecidableRel optDateLe := fun a b => by
  cases a <;> cases b <;> simp only [optDateLe] <;> infer_instance

instance : DecidableRel optDateLt := fun a b => by
  cases a <;> cases b <;> simp only [optDateLt] <;> infer_instance

/-- Sort key of `exercise_history`: `["session_date", "set_number"]`. -/
abbrev histKey (r : Joined) : Option Date × Int :=
  (r.session_date, r.set_number)

/-- Row order of `exercise_history`'s `sort_values`: lexicographic on
(session date, set number). -/
abbrev histLe (a b : Joined) : Prop :=
  optDateLt a.session_date b.session_date ∨
    (a.session_date = b.session_date ∧ a.set_number ≤ b.set_number)

/-- Order of the weekly grouping key (year, week, muscle). -/
abbrev weekKeyLe (a b : Nat × Nat × String) : Prop :=
  a.1 < b.1 ∨ (a.1 = b.1 ∧
    (a.2.1 < b.2.1 ∨ (a.2.1 = b.2.1 ∧ a.2.2 ≤ b.2.2)))

/-! ### groupby -/

/-- Embedding of `df.groupby(key).agg(...)` with default settings: rows whose key is
missing (`NaN`) are dropped, the distinct keys are emitted in ascending
order, and `agg` reduces each group's rows in their original order. -/
def groupby {α κ β : Type} [DecidableEq κ] (l : List α) (key : α → Option κ)
    (κle : κ → κ → Prop) [DecidableRel κle] (agg : List α → β) :
    List (κ × β) :=
  let pairs := l.filterMap fun r => (key r).map fun k => (r, k)
  let keys := List.insertionSort κle (pairs.map Prod.snd).dedup
  keys.map fun k =>
    (k, agg ((pairs.filter fun p => p.2 == k).map Prod.fst))

/-- Maximum of a list of rationals (`.max()` over a group; groups are never
empty, so the `0` default is unreachable). -/
def ratMax : List Rat → Rat
  | [] => 0
  | x :: xs => xs.foldl max x

/-- Embedding of `groupby("session_date")["weight"].max()`: top set weight of a group. -/
def topAgg (rows : List Joined) : Rat :=
  ratMax (rows.map Joined.weight)

/-- Embedding of `groupby("session_date")["volume"].sum()` with
`volume = weight * reps`. -/
def volAgg (rows : List Joined) : Rat :=
  (rows.map fun r => r.weight * (r.reps : Rat)).sum

/-- Embedding of `groupby("session_date")["e1rm"].max()` with
`e1rm = weight * (1 + reps / 30.0)`. -/
def e1rmAgg (rows : List Joined) : Rat :=
  ratMax (rows.map fun r => r.weight * (1 + (r.reps : Rat) / 30))

/-! ### Analytics functions -/

/-- Embedding of `exercise_history`: filter the joined view to exact name matches and
stable-sort ascending by (session date, set number).  `insertionSort` is the
stable sort standing in for the (stable) multi-column `sort_values`. -/
def exercise_history (sessions : List Session) (exercises : List Exercise)
    (sets : List SetRow) (exercise_name : String) : List Joined :=
  let df := _joined_sets sessions exercises sets
  List.insertionSort histLe
    (df.filter fun r => r.exercise_name == some exercise_name)

/-- Embedding of `exercise_progress`: per-session-date reduction of the exercise history
with one of three metrics; unknown metrics raise `ValueError`, but only
after the empty-history early return. -/
def exercise_progress (sessions : List Session) (exercises : List Exercise)
    (sets : List SetRow) (exercise_name : String)
    (metric : String := "top_set_weight") :
    Except String (List (Date × Rat)) :=
  let df := exercise_history sessions exercises sets exercise_name
  if df.isEmpty then .ok []
  else if metric = "top_set_weight" then
    .ok (List.insertionSort (fun a b => Date.le a.1 b.1)
      (groupby df Joined.session_date Date.le topAgg))
  else if metric = "total_volume" then
    .ok (List.insertionSort (fun a b => Date.le a.1 b.1)
      (groupby df Joined.session_date Date.le volAgg))
  else if metric = "e1rm" then
    .ok (List.insertionSort (fun a b => Date.le a.1 b.1)
      (groupby df Joined.session_date Date.le e1rmAgg))
  else .error ("Unknown metric: " ++ metric)

/-- Embedding of `add_week_columns`: copy of the sessions table with ISO week and
calendar year columns appended. -/
def add_week_columns (sessions : List Session) :
    List (Session × Nat × Nat) :=
  sessions.map fun s => (s, s.date.isoWeek, s.date.year)

/-- Grouping key of `weekly_volume_by_muscle`: `["year", "week", "muscle"]`,
where `year` is `.dt.year` (the CALENDAR year) and `week` is the ISO week;
missing when the session date or the muscle did not join. -/
def weekKey (r : Joined) : Option (Nat × Nat × String) :=
  match r.session_date, r.muscle with
  | some d, some m => some (d.year, d.isoWeek, m)
  | _, _ => none

/-- Embedding of `weekly_volume_by_muscle`: join, derive week/year/volume columns, group
by (year, week, muscle), count set rows and sum volume.  The week/year
columns added by `add_week_columns` ride along through the join only to be
overwritten from `session_date` before grouping, so the join reads the
underlying session rows. -/
def weekly_volume_by_muscle (sessions : List Session)
    (exercises : List Exercise) (sets : List SetRow) :
    List ((Nat × Nat × String) × Nat × Rat) :=
  let s := (add_week_columns sessions).map Prod.fst
  let df := _joined_sets s exercises sets
  if df.isEmpty then []
  else
    groupby df weekKey weekKeyLe
      (fun rows =>
        (rows.length, (rows.map fun r => r.weight * (r.reps : Rat)).sum))

/-! ### Facts about folded maxima -/

theorem le_foldl_max (l : List Int) (a : Int) : a ≤ l.foldl max a := by
  induction l generalizing a with
  | nil => simp
  | cons b t ih => exact le_trans (le_max_left a b) (ih (max a b))

theorem mem_le_foldl_max (l : List Int) (a : Int) :
    ∀ x ∈ l, x ≤ l.foldl max a := by
  induction l generalizing a with
  | nil => simp
  | cons b t ih =>
    intro x hx
    rcases List.mem_cons.mp hx with rfl | hx
    · exact le_trans (le_max_right a x) (le_foldl_max t (max a x))
    · exact ih (max a b) x hx

theorem foldl_max_mem (l : List Int) (a : Int) :
    l.foldl max a = a ∨ l.foldl max a ∈ l := by
  induction l generalizing a with
  | nil => exact Or.inl rfl
  | cons b t ih =>
    simp only [List.foldl_cons]
    rcases ih (max a b) with h | h
    · rcases max_choice a b with hab | hab
      · exact Or.inl (by rw [h, hab])
      · exact Or.inr (by rw [h, hab]; exact List.mem_cons_self _ _)
    · exact Or.inr (List.mem_cons_of_mem b h)

theorem foldl_max_le (l : List Int) (a k : Int) (ha : a ≤ k)
    (h : ∀ x ∈ l, x ≤ k) : l.foldl max a ≤ k := by
  induction l generalizing a with
  | nil => exact ha
  | cons b t ih =>
    exact ih (max a b) (max_le ha (h b (List.mem_cons_self _ _)))
      (fun x hx => h x (List.mem_cons_of_mem b hx))

theorem intMax_mem (l : List Int) (h : l ≠ []) : intMax l ∈ l := by
  match l with
  | x :: xs =>
    rcases foldl_max_mem xs x with h1 | h1
    · show xs.foldl max x ∈ x :: xs
      rw [h1]; exact List.mem_cons_self _ _
    · exact List.mem_cons_of_mem x (by simpa [intMax] using h1)

theorem le_intMax (l : List Int) : ∀ x ∈ l, x ≤ intMax l := by
  match l with
  | [] => simp
  | x :: xs =>
    intro y hy
    rcases List.mem_cons.mp hy with rfl | hy
    · exact le_foldl_max xs y
    · exact mem_le_foldl_max xs x y hy

theorem intMax_append_single (l : List Int) (k : Int)
    (h : ∀ x ∈ l, x ≤ k) : intMax (l ++ [k]) = k := by
  match l with
  | [] => rfl
  | x :: xs =>
    show (xs ++ [k]).foldl max x = k
    rw [List.foldl_append]
    exact max_eq_right
      (foldl_max_le xs x k (h x (List.mem_cons_self _ _))
        (fun y hy => h y (List.mem_cons_of_mem x hy)))

/-- Claim C3: `_next_id` returns 1 on an empty table and the column maximum
plus one otherwise; in particular, appending a row whose id `k` dominates
the table makes the next allocation `k + 1`.  (Purity is intrinsic to the
embedding: `_next_id` is a function of its arguments alone.) -/
theorem next_id_spec :
    (∀ (α : Type) (f : α → Int), _next_id ([] : List α) f = 1) ∧
    (∀ (α : Type) (df : List α) (f : α → Int), df ≠ [] →
      (∃ x ∈ df, f x = _next_id df f - 1) ∧
      (∀ x ∈ df, f x ≤ _next_id df f - 1)) ∧
    (∀ (α : Type) (df : List α) (f : α → Int) (r : α) (k : Int),
      (∀ x ∈ df, f x ≤ k) → f r = k →
      _next_id (df ++ [r]) f = k + 1) := by
  refine ⟨fun α f => rfl, ?_, ?_⟩
  · intro α df f hne
    have hmap : df.map f ≠ [] := by simpa using hne
    have hid : _next_id df f = intMax (df.map f) + 1 := by
      unfold _next_id
      rw [if_neg (by simpa [List.isEmpty_iff] using hne)]
    constructor
    · rcases List.mem_map.mp (intMax_mem (df.map f) hmap) with ⟨x, hx, hfx⟩
      exact ⟨x, hx, by rw [hfx, hid]; ring⟩
    · intro x hx
      have := le_intMax (df.map f) (f x) (List.mem_map_of_mem f hx)
      omega
  · intro α df f r k hle hr
    unfold _next_id
    rw [if_neg (by simp [List.isEmpty_iff])]
    rw [List.map_append, List.map_singleton, hr,
      intMax_append_single _ _ (by
        intro x hx
        rcases List.mem_map.mp hx with ⟨y, hy, rfl⟩
        exact hle y hy)]

/-- Witness for C3 at concrete tables: a table holding ids 3 and 5, then a
row with id 7 appended. -/
theorem next_id_witness :
    (([⟨3, ⟨2024, 1, 1⟩, "push", ""⟩, ⟨5, ⟨2024, 1, 2⟩, "pull", ""⟩] :
        List Session) ≠ [] ∧
      (∃ x ∈ ([⟨3, ⟨2024, 1, 1⟩, "push", ""⟩,
                ⟨5, ⟨2024, 1, 2⟩, "pull", ""⟩] : List Session),
        Session.session_id x =
          _next_id [⟨3, ⟨2024, 1, 1⟩, "push", ""⟩,
                    ⟨5, ⟨2024, 1, 2⟩, "pull", ""⟩] Session.session_id - 1)) ∧
    ((∀ x ∈ ([⟨3, ⟨2024, 1, 1⟩, "push", ""⟩] : List Session),
        Session.session_id x ≤ 7) ∧
      _next_id ([⟨3, ⟨2024, 1, 1⟩, "push", ""⟩] ++
          [⟨7, ⟨2024, 1, 3⟩, "legs", ""⟩]) Session.session_id = 7 + 1) :=
  ⟨⟨by decide,
      (next_id_spec.2.1 Session _ Session.session_id (by decide)).1⟩,
    ⟨by decide,
      next_id_spec.2.2 Session _ Session.session_id _ 7 (by decide) rfl⟩⟩

/-- Claim C5: on three empty tables both analytics entry points return an
empty result and raise nothing. -/
theorem empty_input_safety (exercise_name metric : String) :
    exercise_progress [] [] [] exercise_name metric = .ok [] ∧
    weekly_volume_by_muscle [] [] [] = [] :=
  ⟨rfl, rfl⟩

/-! ### Characterizing groupby -/

theorem filter_pairs_map {α κ : Type} [DecidableEq κ] (key : α → Option κ)
    (l : List α) (k : κ) :
    ((l.filterMap fun r => (key r).map fun k' => (r, k')).filter
        fun p => p.2 == k).map Prod.fst =
      l.filter fun r => decide (key r = some k) := by
  induction l with
  | nil => rfl
  | cons a t ih =>
    cases ha : key a with
    | none => simp [List.filterMap_cons, ha, List.filter_cons, ih]
    | some k' =>
      by_cases hk : k' = k
      · subst hk
        simp [List.filterMap_cons, ha, List.filter_cons, ih]
      · simp [List.filterMap_cons, ha, List.filter_cons, ih, hk]

theorem mem_pairs_snd {α κ : Type} [DecidableEq κ] (key : α → Option κ)
    (l : List α) (k : κ) :
    (k ∈ (l.filterMap fun r => (key r).map fun k' => (r, k')).map Prod.snd) ↔
      ∃ r ∈ l, key r = some k := by
  constructor
  · intro h
    rcases List.mem_map.mp h with ⟨p, hp, hpk⟩
    rcases List.mem_filterMap.mp hp with ⟨r, hr, hrp⟩
    rcases Option.map_eq_some'.mp hrp with ⟨k', hk', hpair⟩
    subst hpair
    simp only at hpk
    subst hpk
    exact ⟨r, hr, hk'⟩
  · rintro ⟨r, hr, hk⟩
    exact List.mem_map.mpr ⟨(r, k),
      List.mem_filterMap.mpr ⟨r, hr, by rw [hk]; rfl⟩, rfl⟩

/-- Membership in a `groupby` result: the key is a realized key of the
input, and the value is the reduction of exactly the rows carrying it. -/
theorem groupby_mem {α κ β : Type} [DecidableEq κ] (l : List α)
    (key : α → Option κ) (κle : κ → κ → Prop) [DecidableRel κle]
    (agg : List α → β) (k : κ) (v : β) :
    (k, v) ∈ groupby l key κle agg ↔
      ((∃ r ∈ l, key r = some k) ∧
        v = agg (l.filter fun r => decide (key r = some k))) := by
  unfold groupby
  constructor
  · intro h
    rcases List.mem_map.mp h with ⟨k', hk', heq⟩
    have h1 : k' = k := congrArg Prod.fst heq
    subst h1
    have h2 := congrArg Prod.snd heq
    simp only at h2
    have hmem : k' ∈ ((l.filterMap fun r =>
        (key r).map fun k'' => (r, k'')).map Prod.snd) :=
      List.mem_dedup.mp ((List.perm_insertionSort κle _).mem_iff.mp hk')
    exact ⟨(mem_pairs_snd key l k').mp hmem,
      by rw [← h2, filter_pairs_map]⟩
  · rintro ⟨hex, rfl⟩
    refine List.mem_map.mpr ⟨k, ?_, by rw [filter_pairs_map]⟩
    exact (List.perm_insertionSort κle _).mem_iff.mpr
      (List.mem_dedup.mpr ((mem_pairs_snd key l k).mpr hex))

/-! ### Concrete bench-press fixture from the spec's test properties -/

/-- One push session on 2024-01-08. -/
def benchSessions : List Session := [⟨1, ⟨2024, 1, 8⟩, "push", ""⟩]

/-- One bench-press exercise under that session. -/
def benchExercises : List Exercise := [⟨1, 1, "bench", "chest", "push"⟩]

/-- The spec's two sets: 100 kg × 5 and 90 kg × 8. -/
def benchSets : List SetRow :=
  [⟨1, 1, 1, 100, 5, none, ""⟩, ⟨2, 1, 2, 90, 8, none, ""⟩]

/-- Claim C2: `exercise_progress` groups the history by session date and
reduces each date's rows with max weight / summed weight×reps / max Epley
e1rm, and on the spec's two-set fixture yields 100, 1220 and
100 × (1 + 5/30). -/
theorem exercise_progress_metric_values :
    (∀ sessions exercises sets name,
      exercise_history sessions exercises sets name ≠ [] →
      (∃ l, exercise_progress sessions exercises sets name
          "top_set_weight" = .ok l ∧
        ∀ d v, (d, v) ∈ l ↔
          ((∃ r ∈ exercise_history sessions exercises sets name,
              r.session_date = some d) ∧
            v = topAgg ((exercise_history sessions exercises sets
              name).filter fun r => decide (r.session_date = some d)))) ∧
      (∃ l, exercise_progress sessions exercises sets name
          "total_volume" = .ok l ∧
        ∀ d v, (d, v) ∈ l ↔
          ((∃ r ∈ exercise_history sessions exercises sets name,
              r.session_date = some d) ∧
            v = volAgg ((exercise_history sessions exercises sets
              name).filter fun r => decide (r.session_date = some d)))) ∧
      (∃ l, exercise_progress sessions exercises sets name "e1rm" = .ok l ∧
        ∀ d v, (d, v) ∈ l ↔
          ((∃ r ∈ exercise_history sessions exercises sets name,
              r.session_date = some d) ∧
            v = e1rmAgg ((exercise_history sessions exercises sets
              name).filter fun r => decide (r.session_date = some d))))) ∧
    (exercise_progress benchSessions benchExercises benchSets "bench"
        "top_set_weight" = .ok [(⟨2024, 1, 8⟩, 100)] ∧
      exercise_progress benchSessions benchExercises benchSets "bench"
        "total_volume" = .ok [(⟨2024, 1, 8⟩, 100 * 5 + 90 * 8)] ∧
      exercise_progress benchSessions benchExercises benchSets "bench"
        "e1rm" = .ok [(⟨2024, 1, 8⟩, 100 * (1 + 5 / 30))]) := by
  constructor
  · intro sessions exercises sets name hne
    have hemp : (exercise_history sessions exercises sets name).isEmpty
        = false := by
      simpa [List.isEmpty_iff] using hne
    have htop : exercise_progress sessions exercises sets name
        "top_set_weight" = .ok (List.insertionSort
          (fun a b => Date.le a.1 b.1)
          (groupby (exercise_history sessions exercises sets name)
            Joined.session_date Date.le topAgg)) := by
      simp [exercise_progress, hemp]
    have hvol : exercise_progress sessions exercises sets name
        "total_volume" = .ok (List.insertionSort
          (fun a b => Date.le a.1 b.1)
          (groupby (exercise_history sessions exercises sets name)
            Joined.session_date Date.le volAgg)) := by
      simp [exercise_progress, hemp]
    have he1 : exercise_progress sessions exercises sets name
        "e1rm" = .ok (List.insertionSort
          (fun a b => Date.le a.1 b.1)
          (groupby (exercise_history sessions exercises sets name)
            Joined.session_date Date.le e1rmAgg)) := by
      simp [exercise_progress, hemp]
    refine ⟨⟨_, htop, ?_⟩, ⟨_, hvol, ?_⟩, ⟨_, he1, ?_⟩⟩ <;>
      intro d v <;>
      rw [(List.perm_insertionSort (fun a b : Date × Rat =>
        Date.le a.1 b.1) _).mem_iff] <;>
      exact groupby_mem _ _ _ _ d v
  · refine ⟨?_, ?_, ?_⟩ <;>
      norm_num +decide [exercise_progress, exercise_history, _joined_sets,
        histLe, optDateLt, optDateLe, Date.le, Date.lt,
        merge_sets_exercises, merge_with_sessions, mkJoined, groupby,
        topAgg, volAgg, e1rmAgg, ratMax, benchSessions, benchExercises,
        benchSets, List.filterMap_cons, List.filter_cons,
        List.insertionSort, List.orderedInsert, List.dedup_cons_of_mem,
        List.dedup_cons_of_not_mem]

/-- Witness for C2's general part on the bench-press fixture. -/
theorem exercise_progress_metric_values_witness :
    exercise_history benchSessions benchExercises benchSets "bench" ≠ [] ∧
    (∃ l, exercise_progress benchSessions benchExercises benchSets "bench"
        "top_set_weight" = .ok l ∧
      ∀ d v, (d, v) ∈ l ↔
        ((∃ r ∈ exercise_history benchSessions benchExercises benchSets
            "bench", r.session_date = some d) ∧
          v = topAgg ((exercise_history benchSessions benchExercises
            benchSets "bench").filter fun r =>
              decide (r.session_date = some d)))) :=
  ⟨by decide,
    (exercise_progress_metric_values.1 benchSessions benchExercises
      benchSets "bench" (by decide)).1⟩

/-- Counterexample to claim C4 as stated: "bogus" is not a recognized
metric, yet on empty tables `exercise_progress` raises nothing — the
empty-history early return fires before the metric is inspected. -/
theorem exercise_progress_error_counterexample :
    "bogus" ∉ (["top_set_weight", "total_volume", "e1rm"] : List String) ∧
    exercise_progress [] [] [] "bench" "bogus" = .ok [] :=
  ⟨by decide, rfl⟩

/-- Claim C4 (amended): `exercise_progress` fails — with an invalid-argument
message naming the offending metric — if and only if the metric is
unrecognized AND the filtered history is non-empty; with an empty history
the unrecognized metric is never inspected and an empty result is
returned.  (The inputs are untouched: the embedding is pure and no table
is part of the output.) -/
theorem exercise_progress_error_iff (sessions : List Session)
    (exercises : List Exercise) (sets : List SetRow)
    (name metric : String) :
    ((∃ msg, exercise_progress sessions exercises sets name metric
        = .error msg) ↔
      (metric ∉ (["top_set_weight", "total_volume", "e1rm"] :
          List String) ∧
        exercise_history sessions exercises sets name ≠ [])) ∧
    (∀ msg, exercise_progress sessions exercises sets name metric
        = .error msg → msg = "Unknown metric: " ++ metric) := by
  cases hemp : (exercise_history sessions exercises sets name).isEmpty with
  | true =>
    have hnil : exercise_history sessions exercises sets name = [] :=
      List.isEmpty_iff.mp hemp
    exact ⟨by simp [exercise_progress, hemp, hnil],
      fun msg h => by simp [exercise_progress, hemp] at h⟩
  | false =>
    have hne : exercise_history sessions exercises sets name ≠ [] :=
      fun h => by simp [h] at hemp
    by_cases h1 : metric = "top_set_weight"
    · subst h1
      exact ⟨by simp [exercise_progress, hemp],
        fun msg h => by simp [exercise_progress, hemp] at h⟩
    by_cases h2 : metric = "total_volume"
    · subst h2
      exact ⟨by simp [exercise_progress, hemp],
        fun msg h => by simp [exercise_progress, hemp] at h⟩
    by_cases h3 : metric = "e1rm"
    · subst h3
      exact ⟨by simp [exercise_progress, hemp],
        fun msg h => by simp [exercise_progress, hemp] at h⟩
    constructor
    · simp [exercise_progress, hemp, h1, h2, h3, hne]
    · intro msg h
      simp [exercise_progress, hemp, h1, h2, h3] at h
      exact h.symm

/-- Witness for C4 (amended) at a concrete unrecognized metric on the
bench-press fixture, whose history is non-empty. -/
theorem exercise_progress_error_iff_witness :
    ∃ msg, exercise_progress benchSessions benchExercises benchSets
      "bench" "bogus" = .error msg :=
  (exercise_progress_error_iff benchSessions benchExercises benchSets
    "bench" "bogus").1.mpr ⟨by decide, by decide⟩

/-! ### Stability of the insertion sort -/

theorem filter_orderedInsert_of_key {α : Type} (r : α → α → Prop)
    [DecidableRel r] (p : α → Bool) (x : α) (l : List α) (hx : p x = true)
    (hall : ∀ y, p y = true → r x y) :
    (List.orderedInsert r x l).filter p = x :: l.filter p := by
  induction l with
  | nil => simp [hx]
  | cons y ys ih =>
    by_cases hr : r x y
    · simp [hr, List.filter_cons, hx]
    · have hpy : p y = false := by
        cases hpy : p y with
        | true => exact absurd (hall y hpy) hr
        | false => rfl
      simp [hr, List.filter_cons, hpy, ih]

theorem filter_orderedInsert_of_not {α : Type} (r : α → α → Prop)
    [DecidableRel r] (p : α → Bool) (x : α) (l : List α)
    (hx : p x = false) :
    (List.orderedInsert r x l).filter p = l.filter p := by
  induction l with
  | nil => simp [hx]
  | cons y ys ih =>
    by_cases hr : r x y
    · simp [hr, List.filter_cons, hx]
    · simp [hr, List.filter_cons, ih]

/-- The insertion sort is stable: restricted to any single sort key, the
output is the input. -/
theorem filter_insertionSort_key {α κ : Type} [DecidableEq κ] (key : α → κ)
    (r : α → α → Prop) [DecidableRel r]
    (hrefl : ∀ a b, key a = key b → r a b) (l : List α) (k : κ) :
    (List.insertionSort r l).filter (fun x => decide (key x = k)) =
      l.filter (fun x => decide (key x = k)) := by
  induction l with
  | nil => rfl
  | cons a t ih =>
    show (List.orderedInsert r a (List.insertionSort r t)).filter _ = _
    by_cases hk : key a = k
    · rw [filter_orderedInsert_of_key r _ a _ (by simp [hk])
        (fun y hy => hrefl a y (by simp at hy; rw [hk, hy])), ih,
        List.filter_cons, if_pos (by simp [hk])]
    · rw [filter_orderedInsert_of_not r _ a _ (by simp [hk]), ih,
        List.filter_cons, if_neg (by simp [hk])]

/-! ### The history ordering is a total preorder -/

theorem histLe_total (a b : Joined) : histLe a b ∨ histLe b a := by
  rcases ha : a.session_date with _ | ⟨y1, m1, d1⟩ <;>
    rcases hb : b.session_date with _ | ⟨y2, m2, d2⟩ <;>
      simp only [histLe, optDateLt, Date.lt, ha, hb, Option.some.injEq,
        Date.mk.injEq, reduceCtorEq, or_false, false_or, false_and,
        and_false, true_and, and_true, not_false_eq_true] <;>
      omega

theorem histLe_trans (a b c : Joined) (h1 : histLe a b)
    (h2 : histLe b c) : histLe a c := by
  rcases ha : a.session_date with _ | ⟨y1, m1, d1⟩ <;>
    rcases hb : b.session_date with _ | ⟨y2, m2, d2⟩ <;>
      rcases hc : c.session_date with _ | ⟨y3, m3, d3⟩ <;>
      simp only [histLe, optDateLt, Date.lt, ha, hb, hc,
        Option.some.injEq, Date.mk.injEq, reduceCtorEq, or_false,
        false_or, false_and, and_false, true_and, and_true,
        not_false_eq_true] at h1 h2 ⊢ <;>
      omega

theorem histLe_of_key_eq (a b : Joined) (h : histKey a = histKey b) :
    histLe a b := by
  have h1 : a.session_date = b.session_date := congrArg Prod.fst h
  have h2 : a.set_number = b.set_number := congrArg Prod.snd h
  exact Or.inr ⟨h1, le_of_eq h2⟩

/-- Claim C7: `exercise_history` returns exactly the joined-view rows whose
`exercise_name` matches the requested name (as a permutation of that
filter), sorted ascending by (session date, set number), and the sort is
stable — restricted to any single (date, set number) key the output
preserves the join order. -/
theorem exercise_history_correct (sessions : List Session)
    (exercises : List Exercise) (sets : List SetRow) (name : String) :
    List.Perm (exercise_history sessions exercises sets name)
      ((_joined_sets sessions exercises sets).filter fun r =>
        r.exercise_name == some name) ∧
    List.Sorted histLe (exercise_history sessions exercises sets name) ∧
    (∀ k : Option Date × Int,
      (exercise_history sessions exercises sets name).filter
          (fun r => decide (histKey r = k)) =
        (((_joined_sets sessions exercises sets).filter fun r =>
            r.exercise_name == some name).filter
          fun r => decide (histKey r = k))) := by
  haveI : IsTotal Joined histLe := ⟨histLe_total⟩
  haveI : IsTrans Joined histLe := ⟨histLe_trans⟩
  exact ⟨List.perm_insertionSort _ _, List.sorted_insertionSort _ _,
    fun k => filter_insertionSort_key histKey histLe histLe_of_key_eq _ k⟩

/-! ### The joined view under unique keys -/

/-- When at most one element satisfies `p`, filtering is finding. -/
theorem filter_eq_find_of_unique {α : Type} (p : α → Bool) (l : List α)
    (hu : l.Pairwise fun a b => ¬(p a = true ∧ p b = true)) :
    l.filter p = (l.find? p).toList := by
  induction l with
  | nil => rfl
  | cons a t ih =>
    rcases List.pairwise_cons.mp hu with ⟨ha, ht⟩
    cases hpa : p a with
    | true =>
      have ht0 : t.filter p = [] := by
        refine List.filter_eq_nil_iff.mpr fun x hx => ?_
        intro hpx
        exact ha x hx ⟨hpa, hpx⟩
      simp [List.filter_cons, List.find?_cons, hpa, ht0]
    | false => simp [List.filter_cons, List.find?_cons, hpa, ih ht]

/-- Normal form of the joined row of one set when ids are unique: resolve
the exercise by `find?`, then its session by `find?`. -/
def joinRowUnique (sessions : List Session) (exercises : List Exercise)
    (r : SetRow) : Joined :=
  match exercises.find? (fun e => e.exercise_id == r.exercise_id) with
  | none => mkJoined r none none
  | some ex =>
    mkJoined r (some ex)
      (sessions.find? fun s => s.session_id == ex.session_id)

theorem merge_with_sessions_append (l1 l2 : List (SetRow × Option Exercise))
    (sessions : List Session) :
    merge_with_sessions (l1 ++ l2) sessions =
      merge_with_sessions l1 sessions ++ merge_with_sessions l2 sessions := by
  induction l1 with
  | nil => rfl
  | cons p t ih => simp [merge_with_sessions, ih]

/-- The singleton step of the second merge when session ids are unique. -/
theorem merge_with_sessions_single_unique (p : SetRow × Option Exercise)
    (sessions : List Session)
    (hS : sessions.Pairwise fun a b => a.session_id ≠ b.session_id) :
    merge_with_sessions [p] sessions =
      [mkJoined p.1 p.2
        (match p.2 with
         | none => none
         | some ex =>
           sessions.find? fun s => s.session_id == ex.session_id)] := by
  cases p with
  | mk r oex =>
    cases oex with
    | none =>
      have h0 : sessions.filter (fun s => some s.session_id ==
          ((r, (none : Option Exercise)).2.map Exercise.session_id))
          = [] :=
        List.filter_eq_nil_iff.mpr fun x hx => by simp
      show (match sessions.filter (fun s => some s.session_id ==
          ((r, (none : Option Exercise)).2.map Exercise.session_id)) with
        | [] => [mkJoined r none none]
        | ss => ss.map fun s => mkJoined r none (some s)) ++ [] = _
      rw [h0]
      rfl
    | some ex =>
      have hps : (fun s : Session => some s.session_id ==
          ((r, some ex).2.map Exercise.session_id)) =
          fun s => s.session_id == ex.session_id := by
        funext s
        simp [Bool.eq_iff_iff]
      have h0 : sessions.filter (fun s => some s.session_id ==
          ((r, some ex).2.map Exercise.session_id)) =
          (sessions.find? fun s => s.session_id == ex.session_id).toList
          := by
        rw [hps]
        refine filter_eq_find_of_unique _ _ (hS.imp ?_)
        intro a b hab ⟨h1, h2⟩
        rw [beq_iff_eq] at h1 h2
        exact hab (by rw [h1, h2])
      show (match sessions.filter (fun s => some s.session_id ==
          ((r, some ex).2.map Exercise.session_id)) with
        | [] => [mkJoined r (some ex) none]
        | ss => ss.map fun s => mkJoined r (some ex) (some s)) ++ [] = _
      rw [h0]
      show (match (sessions.find? fun s =>
          s.session_id == ex.session_id).toList with
        | [] => [mkJoined r (some ex) none]
        | ss => ss.map fun s => mkJoined r (some ex) (some s)) ++ [] =
        [mkJoined r (some ex)
          (sessions.find? fun s => s.session_id == ex.session_id)]
      cases sessions.find? fun s => s.session_id == ex.session_id with
      | none => rfl
      | some s0 => rfl

/-- Claim C8: with unique exercise ids and unique session ids, the joined
view holds exactly one row per set row in order — annotated through
`mkJoined` with the exercise's and session's columns when the foreign keys
resolve, and with absent values where they do not; no set is dropped. -/
theorem joined_view_unique_keys (sessions : List Session)
    (exercises : List Exercise) (sets : List SetRow)
    (hE : exercises.Pairwise fun a b => a.exercise_id ≠ b.exercise_id)
    (hS : sessions.Pairwise fun a b => a.session_id ≠ b.session_id) :
    _joined_sets sessions exercises sets =
      sets.map (joinRowUnique sessions exercises) ∧
    (_joined_sets sessions exercises sets).length = sets.length := by
  have hmain : _joined_sets sessions exercises sets =
      sets.map (joinRowUnique sessions exercises) := by
    induction sets with
    | nil => rfl
    | cons r t ih =>
      show merge_with_sessions (merge_sets_exercises (r :: t) exercises)
          sessions = _
      rw [merge_sets_exercises, merge_with_sessions_append]
      rw [show merge_with_sessions (merge_sets_exercises t exercises)
          sessions = _joined_sets sessions exercises t from rfl, ih]
      rw [List.map_cons]
      have hEfilter : exercises.filter
          (fun e => e.exercise_id == r.exercise_id) =
          (exercises.find? fun e =>
            e.exercise_id == r.exercise_id).toList := by
        refine filter_eq_find_of_unique _ _ (hE.imp ?_)
        intro a b hab ⟨h1, h2⟩
        rw [beq_iff_eq] at h1 h2
        exact hab (by rw [h1, h2])
      rw [hEfilter]
      cases hfind : exercises.find? (fun e =>
          e.exercise_id == r.exercise_id) with
      | none =>
        change merge_with_sessions [(r, none)] sessions ++
          List.map (joinRowUnique sessions exercises) t = _
        rw [merge_with_sessions_single_unique (r, none) sessions hS]
        simp [joinRowUnique, hfind]
      | some ex =>
        change merge_with_sessions [(r, some ex)] sessions ++
          List.map (joinRowUnique sessions exercises) t = _
        rw [merge_with_sessions_single_unique (r, some ex)
          sessions hS]
        simp [joinRowUnique, hfind]
  exact ⟨hmain, by rw [hmain, List.length_map]⟩

/-- Witness for C8: one resolving set and one dangling set (exercise id 99
has no exercise row); both appear, the latter with absent values. -/
theorem joined_view_unique_keys_witness :
    (([⟨1, 1, "bench", "chest", "push"⟩] : List Exercise).Pairwise
        fun a b => a.exercise_id ≠ b.exercise_id) ∧
    (([⟨1, ⟨2024, 1, 8⟩, "push", ""⟩] : List Session).Pairwise
        fun a b => a.session_id ≠ b.session_id) ∧
    _joined_sets [⟨1, ⟨2024, 1, 8⟩, "push", ""⟩]
        [⟨1, 1, "bench", "chest", "push"⟩]
        [⟨1, 1, 1, 100, 5, none, ""⟩, ⟨2, 99, 1, 50, 10, none, ""⟩] =
      ([⟨1, 1, 1, 100, 5, none, ""⟩, ⟨2, 99, 1, 50, 10, none, ""⟩] :
          List SetRow).map
        (joinRowUnique [⟨1, ⟨2024, 1, 8⟩, "push", ""⟩]
          [⟨1, 1, "bench", "chest", "push"⟩]) :=
  ⟨by decide, by decide,
    (joined_view_unique_keys _ _ _ (by decide) (by decide)).1⟩

/-! ### Weekly volume -/

theorem add_week_columns_fst (sessions : List Session) :
    (add_week_columns sessions).map Prod.fst = sessions := by
  simp [add_week_columns, List.map_map, Function.comp_def]

/-- Restating `weekly_volume_by_muscle` with the join spelled over the raw sessions
(the week/year columns appended by `add_week_columns` are dropped by the
grouping, which recomputes them from `session_date`). -/
theorem weekly_volume_by_muscle_eq (sessions : List Session)
    (exercises : List Exercise) (sets : List SetRow) :
    weekly_volume_by_muscle sessions exercises sets =
      if (_joined_sets sessions exercises sets).isEmpty then []
      else
        groupby (_joined_sets sessions exercises sets) weekKey weekKeyLe
          (fun rows =>
            (rows.length,
              (rows.map fun r => r.weight * (r.reps : Rat)).sum)) := by
  unfold weekly_volume_by_muscle
  rw [add_week_columns_fst]

/-- Two chest sessions inside ISO week 2 of 2024. -/
def weekSessions : List Session :=
  [⟨1, ⟨2024, 1, 8⟩, "push", ""⟩, ⟨2, ⟨2024, 1, 9⟩, "push", ""⟩]

/-- One chest exercise in each of those sessions. -/
def weekExercises : List Exercise :=
  [⟨1, 1, "bench", "chest", "push"⟩, ⟨2, 2, "incline", "chest", "push"⟩]

/-- One set per exercise: 100 kg × 5 and 90 kg × 8. -/
def weekSets : List SetRow :=
  [⟨1, 1, 1, 100, 5, none, ""⟩, ⟨2, 2, 1, 90, 8, none, ""⟩]

/-- Claim C6 (amended): `weekly_volume_by_muscle` groups by (CALENDAR year
— `.dt.year`, not the ISO year — ISO week, muscle); per group it reports
the count of set rows and the summed weight×reps, and two same-ISO-week
chest sets in one calendar year land in a single row with `sets = 2`. -/
theorem weekly_volume_correct (sessions : List Session)
    (exercises : List Exercise) (sets : List SetRow) :
    (∀ (k : Nat × Nat × String) (cv : Nat × Rat),
      (k, cv) ∈ weekly_volume_by_muscle sessions exercises sets ↔
        ((∃ r ∈ _joined_sets sessions exercises sets,
            weekKey r = some k) ∧
          cv = (((_joined_sets sessions exercises sets).filter fun r =>
              decide (weekKey r = some k)).length,
            (((_joined_sets sessions exercises sets).filter fun r =>
                decide (weekKey r = some k)).map fun r =>
              r.weight * (r.reps : Rat)).sum))) ∧
    weekly_volume_by_muscle weekSessions weekExercises weekSets =
      [((2024, 2, "chest"), (2, 100 * 5 + 90 * 8))] := by
  constructor
  · intro k cv
    rw [weekly_volume_by_muscle_eq]
    cases hemp : (_joined_sets sessions exercises sets).isEmpty with
    | true =>
      have hnil : _joined_sets sessions exercises sets = [] :=
        List.isEmpty_iff.mp hemp
      simp [hnil]
    | false =>
      simp only [hemp, Bool.false_eq_true, if_false]
      exact groupby_mem (_joined_sets sessions exercises sets) weekKey
        weekKeyLe (fun rows => (rows.length,
          (rows.map fun r => r.weight * (r.reps : Rat)).sum)) k cv
  · norm_num +decide [weekly_volume_by_muscle, add_week_columns,
      _joined_sets, merge_sets_exercises, merge_with_sessions, mkJoined,
      groupby, weekKey, weekKeyLe, weekSessions, weekExercises, weekSets,
      Date.isoWeek, Date.isoDow, Date.sakamoto, Date.dayOfYear,
      Date.daysBeforeMonth, Date.isLeap, Date.weeksInYear,
      List.filterMap_cons, List.filter_cons, List.insertionSort,
      List.orderedInsert, List.dedup_cons_of_mem,
      List.dedup_cons_of_not_mem]

/-- Counterexample to C6's "ISO year" reading: 2020-12-31 and 2021-01-01
share both the ISO week (53) and the ISO year (2020) and train the same
muscle, yet the backend groups them apart because it keys on the calendar
year (2020 vs 2021), producing two rows instead of one. -/
theorem weekly_volume_iso_year_counterexample :
    Date.isoWeek ⟨2020, 12, 31⟩ = Date.isoWeek ⟨2021, 1, 1⟩ ∧
    Date.isoYear ⟨2020, 12, 31⟩ = Date.isoYear ⟨2021, 1, 1⟩ ∧
    (weekly_volume_by_muscle
        [⟨1, ⟨2020, 12, 31⟩, "push", ""⟩, ⟨2, ⟨2021, 1, 1⟩, "push", ""⟩]
        [⟨1, 1, "bench", "chest", "push"⟩,
          ⟨2, 2, "incline", "chest", "push"⟩]
        [⟨1, 1, 1, 100, 5, none, ""⟩, ⟨2, 2, 1, 90, 8, none, ""⟩]).map
        Prod.fst =
      [(2020, 53, "chest"), (2021, 53, "chest")] := by
  refine ⟨by decide, by decide, ?_⟩
  decide

/-- Claim C10: a joined row with an absent muscle has no grouping key, so
it is dropped by `groupby` — every emitted group stems from a resolved row
and counts only resolved rows — while an empty-string muscle is an
ordinary group key.  Concretely: a dangling set (exercise id 99) vanishes
from the output while the empty-muscle set is kept under the `""` group. -/
theorem weekly_volume_absent_muscle (sessions : List Session)
    (exercises : List Exercise) (sets : List SetRow) :
    (∀ r ∈ _joined_sets sessions exercises sets, r.muscle = none →
      weekKey r = none) ∧
    (∀ (k : Nat × Nat × String) (cv : Nat × Rat),
      (k, cv) ∈ weekly_volume_by_muscle sessions exercises sets →
        (∃ r ∈ _joined_sets sessions exercises sets,
          weekKey r = some k) ∧
        cv.1 = ((_joined_sets sessions exercises sets).filter fun r =>
          decide (weekKey r = some k)).length) ∧
    weekly_volume_by_muscle [⟨1, ⟨2024, 1, 8⟩, "push", ""⟩]
        [⟨1, 1, "bench", "", "push"⟩]
        [⟨1, 1, 1, 100, 5, none, ""⟩, ⟨2, 99, 1, 50, 10, none, ""⟩] =
      [((2024, 2, ""), (1, 100 * 5))] := by
  refine ⟨?_, ?_, ?_⟩
  · intro r _ hm
    cases hd : r.session_date <;> simp [weekKey, hm, hd]
  · intro k cv hmem
    rw [weekly_volume_by_muscle_eq] at hmem
    cases hemp : (_joined_sets sessions exercises sets).isEmpty with
    | true => simp [hemp] at hmem
    | false =>
      simp only [hemp, Bool.false_eq_true, if_false] at hmem
      rcases (groupby_mem (_joined_sets sessions exercises sets) weekKey
        weekKeyLe (fun rows => (rows.length,
          (rows.map fun r => r.weight * (r.reps : Rat)).sum)) k cv).mp
        hmem with ⟨hex, hcv⟩
      exact ⟨hex, by rw [hcv]⟩
  · norm_num +decide [weekly_volume_by_muscle, add_week_columns,
      _joined_sets, merge_sets_exercises, merge_with_sessions, mkJoined,
      groupby, weekKey, weekKeyLe, Date.isoWeek, Date.isoDow,
      Date.sakamoto, Date.dayOfYear, Date.daysBeforeMonth, Date.isLeap,
      Date.weeksInYear, List.filterMap_cons, List.filter_cons,
      List.insertionSort, List.orderedInsert, List.dedup_cons_of_mem,
      List.dedup_cons_of_not_mem]

/-- Claim C9: every table-building operation returns a snapshot that
extends the caller's table — the argument rows survive unchanged as a
first segment and the new row is appended — and `add_week_columns` keeps
the underlying session rows intact.  (Absence of in-place mutation is
intrinsic to the embedding: every function is pure, and the analytics
functions return only derived values, never a table.) -/
theorem snapshot_semantics :
    (∀ (sessions : List Session) (date : Date) (group notes : String),
      (add_session sessions date group notes).1 =
        sessions ++
          [⟨_next_id sessions Session.session_id, date, group, notes⟩]) ∧
    (∀ (exercises : List Exercise) (sid : Int) (name : String)
        (muscle group : Option String),
      (add_exercise exercises sid name muscle group).1 =
        exercises ++ [⟨_next_id exercises Exercise.exercise_id, sid, name,
          muscle.getD "", group.getD ""⟩]) ∧
    (∀ (sets : List SetRow) (eid num : Int) (w : Rat) (reps : Int)
        (rir : Option Int) (comments : String),
      add_set sets eid num w reps rir comments =
        sets ++
          [⟨_next_id sets SetRow.set_id, eid, num, w, reps, rir,
            comments⟩]) ∧
    (∀ sessions : List Session,
      (add_week_columns sessions).map Prod.fst = sessions) ∧
    (∀ (sessions : List Session) (exercises : List Exercise)
        (sets : List SetRow) (date : Date) (day_group name : String)
        (num : Int) (w : Rat) (reps : Int) (rir : Option Int)
        (muscle : Option String),
      (∃ tail, (quick_log_set sessions exercises sets date day_group name
        num w reps rir muscle).1 = sessions ++ tail) ∧
      (∃ tail, (quick_log_set sessions exercises sets date day_group name
        num w reps rir muscle).2.1 = exercises ++ tail) ∧
      (∃ tail, (quick_log_set sessions exercises sets date day_group name
        num w reps rir muscle).2.2 = sets ++ tail)) := by
  refine ⟨fun _ _ _ _ => rfl, fun _ _ _ _ _ => rfl,
    fun _ _ _ _ _ _ _ => rfl, add_week_columns_fst, ?_⟩
  intro sessions exercises sets date day_group name num w reps rir muscle
  simp only [quick_log_set]
  cases sessions.find? (fun s => s.date == date && s.group == day_group)
    with
  | some s =>
    cases exercises.find? (fun e => e.session_id == s.session_id &&
        e.exercise_name == name) with
    | some e2 => exact ⟨⟨[], by simp⟩, ⟨[], by simp⟩, ⟨_, rfl⟩⟩
    | none => exact ⟨⟨[], by simp⟩, ⟨_, rfl⟩, ⟨_, rfl⟩⟩
  | none =>
    cases exercises.find? (fun e =>
        e.session_id == (add_session sessions date day_group).2 &&
        e.exercise_name == name) with
    | some e2 => exact ⟨⟨_, rfl⟩, ⟨[], by simp⟩, ⟨_, rfl⟩⟩
    | none => exact ⟨⟨_, rfl⟩, ⟨_, rfl⟩, ⟨_, rfl⟩⟩

/-- Witness for C10 at a concrete dangling set: its joined row has an
absent muscle and therefore no grouping key. -/
theorem weekly_volume_absent_muscle_witness :
    (mkJoined ⟨2, 99, 1, 50, 10, none, ""⟩ none none) ∈
      _joined_sets [⟨1, ⟨2024, 1, 8⟩, "push", ""⟩]
        [⟨1, 1, "bench", "", "push"⟩]
        [⟨1, 1, 1, 100, 5, none, ""⟩, ⟨2, 99, 1, 50, 10, none, ""⟩] ∧
    (mkJoined ⟨2, 99, 1, 50, 10, none, ""⟩ none none).muscle = none ∧
    weekKey (mkJoined ⟨2, 99, 1, 50, 10, none, ""⟩ none none) = none :=
  ⟨by decide, rfl,
    (weekly_volume_absent_muscle [⟨1, ⟨2024, 1, 8⟩, "push", ""⟩]
      [⟨1, 1, "bench", "", "push"⟩]
      [⟨1, 1, 1, 100, 5, none, ""⟩, ⟨2, 99, 1, 50, 10, none, ""⟩]).1
      _ (by decide) rfl⟩

/-! ### Quick-log idempotence and its invariant -/

/-- At most one session row per (date, group). -/
def SessionsUnique (sessions : List Session) : Prop :=
  sessions.Pairwise fun a b => ¬(a.date = b.date ∧ a.group = b.group)

/-- At most one exercise row per (session id, exercise name). -/
def ExercisesUnique (exercises : List Exercise) : Prop :=
  exercises.Pairwise fun a b =>
    ¬(a.session_id = b.session_id ∧ a.exercise_name = b.exercise_name)

/-- Table states reachable from empty tables by quick-logging alone. -/
inductive QLReachable :
    List Session × List Exercise × List SetRow → Prop
  | empty : QLReachable ([], [], [])
  | step (t : List Session × List Exercise × List SetRow) (date : Date)
      (day_group exercise_name : String) (set_number : Int) (weight : Rat)
      (reps : Int) (rir : Option Int) (muscle : Option String) :
      QLReachable t →
      QLReachable (quick_log_set t.1 t.2.1 t.2.2 date day_group
        exercise_name set_number weight reps rir muscle)

/-- One `quick_log_set` call preserves both uniqueness invariants: a
session (exercise) is only created when the lookup found no matching row,
so the appended row cannot collide with an existing one. -/
theorem quick_log_set_preserves_unique (sessions : List Session)
    (exercises : List Exercise) (sets : List SetRow) (date : Date)
    (day_group exercise_name : String) (set_number : Int) (weight : Rat)
    (reps : Int) (rir : Option Int) (muscle : Option String)
    (hs : SessionsUnique sessions) (he : ExercisesUnique exercises) :
    SessionsUnique (quick_log_set sessions exercises sets date day_group
      exercise_name set_number weight reps rir muscle).1 ∧
    ExercisesUnique (quick_log_set sessions exercises sets date day_group
      exercise_name set_number weight reps rir muscle).2.1 := by
  simp only [quick_log_set]
  cases hf : sessions.find?
      (fun s => s.date == date && s.group == day_group) with
  | some s =>
    cases hfe : exercises.find? (fun e => e.session_id == s.session_id &&
        e.exercise_name == exercise_name) with
    | some e2 => exact ⟨hs, he⟩
    | none =>
      refine ⟨hs, List.pairwise_append.mpr ⟨he, List.pairwise_singleton _ _,
        ?_⟩⟩
      intro a ha b hb
      rcases List.mem_singleton.mp hb with rfl
      have := List.find?_eq_none.mp hfe a ha
      simp only [Bool.and_eq_true, beq_iff_eq, not_and] at this
      rintro ⟨h1, h2⟩
      exact absurd h2 (this h1)
  | none =>
    have hnos : ∀ a ∈ sessions, ¬(a.date = date ∧ a.group = day_group) := by
      intro a ha
      have := List.find?_eq_none.mp hf a ha
      simp only [Bool.and_eq_true, beq_iff_eq, not_and] at this
      rintro ⟨h1, h2⟩
      exact absurd h2 (this h1)
    have hs' : SessionsUnique (add_session sessions date day_group).1 := by
      refine List.pairwise_append.mpr ⟨hs, List.pairwise_singleton _ _, ?_⟩
      intro a ha b hb
      rcases List.mem_singleton.mp hb with rfl
      rintro ⟨h1, h2⟩
      exact hnos a ha ⟨h1, h2⟩
    cases hfe : exercises.find? (fun e =>
        e.session_id == (add_session sessions date day_group).2 &&
        e.exercise_name == exercise_name) with
    | some e2 => exact ⟨hs', he⟩
    | none =>
      refine ⟨hs', List.pairwise_append.mpr ⟨he,
        List.pairwise_singleton _ _, ?_⟩⟩
      intro a ha b hb
      rcases List.mem_singleton.mp hb with rfl
      have := List.find?_eq_none.mp hfe a ha
      simp only [Bool.and_eq_true, beq_iff_eq, not_and] at this
      rintro ⟨h1, h2⟩
      exact absurd h2 (this h1)

/-- Counterexample to C1's "for any three tables" reading: start from a
sets table that already holds a set whose exercise id is 1.  Two identical
quick-log calls then leave THREE set rows under the (unique) exercise row
for ("push", "bench"), not two. -/
theorem quick_log_idempotent_counterexample :
    (quick_log_set
      (quick_log_set [] [] [⟨1, 1, 1, 100, 5, none, ""⟩] ⟨2024, 1, 8⟩
        "push" "bench" 1 100 5 none none).1
      (quick_log_set [] [] [⟨1, 1, 1, 100, 5, none, ""⟩] ⟨2024, 1, 8⟩
        "push" "bench" 1 100 5 none none).2.1
      (quick_log_set [] [] [⟨1, 1, 1, 100, 5, none, ""⟩] ⟨2024, 1, 8⟩
        "push" "bench" 1 100 5 none none).2.2
      ⟨2024, 1, 8⟩ "push" "bench" 2 90 8 none none).2.1 =
      [⟨1, 1, "bench", "", "push"⟩] ∧
    ((quick_log_set
      (quick_log_set [] [] [⟨1, 1, 1, 100, 5, none, ""⟩] ⟨2024, 1, 8⟩
        "push" "bench" 1 100 5 none none).1
      (quick_log_set [] [] [⟨1, 1, 1, 100, 5, none, ""⟩] ⟨2024, 1, 8⟩
        "push" "bench" 1 100 5 none none).2.1
      (quick_log_set [] [] [⟨1, 1, 1, 100, 5, none, ""⟩] ⟨2024, 1, 8⟩
        "push" "bench" 1 100 5 none none).2.2
      ⟨2024, 1, 8⟩ "push" "bench" 2 90 8 none none).2.2.filter fun r =>
        r.exercise_id == 1).length = 3 := by
  constructor <;> decide

/-- Claim C1 (amended): starting from EMPTY tables, two `quick_log_set`
calls with the same (date, group, exercise name) leave exactly one
matching session row, exactly one matching exercise row under it, and
exactly two set rows under that exercise; and every table state reachable
from empty tables through `quick_log_set` alone has at most one session
per (date, group) and at most one exercise per (session, name). -/
theorem quick_log_idempotent :
    (∀ (date : Date) (day_group exercise_name : String) (n1 n2 : Int)
        (w1 w2 : Rat) (r1 r2 : Int) (rr1 rr2 : Option Int)
        (m1 m2 : Option String),
      ((quick_log_set
          (quick_log_set [] [] [] date day_group exercise_name n1 w1 r1
            rr1 m1).1
          (quick_log_set [] [] [] date day_group exercise_name n1 w1 r1
            rr1 m1).2.1
          (quick_log_set [] [] [] date day_group exercise_name n1 w1 r1
            rr1 m1).2.2
          date day_group exercise_name n2 w2 r2 rr2 m2).1.filter fun s =>
            s.date == date && s.group == day_group).length = 1 ∧
      (∀ s ∈ (quick_log_set
          (quick_log_set [] [] [] date day_group exercise_name n1 w1 r1
            rr1 m1).1
          (quick_log_set [] [] [] date day_group exercise_name n1 w1 r1
            rr1 m1).2.1
          (quick_log_set [] [] [] date day_group exercise_name n1 w1 r1
            rr1 m1).2.2
          date day_group exercise_name n2 w2 r2 rr2 m2).1,
        ((quick_log_set
          (quick_log_set [] [] [] date day_group exercise_name n1 w1 r1
            rr1 m1).1
          (quick_log_set [] [] [] date day_group exercise_name n1 w1 r1
            rr1 m1).2.1
          (quick_log_set [] [] [] date day_group exercise_name n1 w1 r1
            rr1 m1).2.2
          date day_group exercise_name n2 w2 r2 rr2 m2).2.1.filter fun e =>
            e.session_id == s.session_id &&
              e.exercise_name == exercise_name).length = 1) ∧
      (∀ e ∈ (quick_log_set
          (quick_log_set [] [] [] date day_group exercise_name n1 w1 r1
            rr1 m1).1
          (quick_log_set [] [] [] date day_group exercise_name n1 w1 r1
            rr1 m1).2.1
          (quick_log_set [] [] [] date day_group exercise_name n1 w1 r1
            rr1 m1).2.2
          date day_group exercise_name n2 w2 r2 rr2 m2).2.1,
        ((quick_log_set
          (quick_log_set [] [] [] date day_group exercise_name n1 w1 r1
            rr1 m1).1
          (quick_log_set [] [] [] date day_group exercise_name n1 w1 r1
            rr1 m1).2.1
          (quick_log_set [] [] [] date day_group exercise_name n1 w1 r1
            rr1 m1).2.2
          date day_group exercise_name n2 w2 r2 rr2 m2).2.2.filter fun r =>
            r.exercise_id == e.exercise_id).length = 2)) ∧
    (∀ t, QLReachable t → SessionsUnique t.1 ∧ ExercisesUnique t.2.1) := by
  constructor
  · intro date day_group exercise_name n1 n2 w1 w2 r1 r2 rr1 rr2 m1 m2
    have h1 : quick_log_set [] [] [] date day_group exercise_name n1 w1 r1
        rr1 m1 =
        ([⟨1, date, day_group, ""⟩],
          [⟨1, 1, exercise_name, m1.getD "", day_group⟩],
          [⟨1, 1, n1, w1, r1, rr1, ""⟩]) := by
      simp [quick_log_set, add_session, add_exercise, add_set, _next_id,
        intMax]
    rw [h1]
    have h2 : quick_log_set [⟨1, date, day_group, ""⟩]
        [⟨1, 1, exercise_name, m1.getD "", day_group⟩]
        [⟨1, 1, n1, w1, r1, rr1, ""⟩]
        date day_group exercise_name n2 w2 r2 rr2 m2 =
        ([⟨1, date, day_group, ""⟩],
          [⟨1, 1, exercise_name, m1.getD "", day_group⟩],
          [⟨1, 1, n1, w1, r1, rr1, ""⟩, ⟨2, 1, n2, w2, r2, rr2, ""⟩]) := by
      simp [quick_log_set, add_session, add_exercise, add_set, _next_id,
        intMax, List.find?_cons]
    rw [h2]
    refine ⟨by simp [List.filter_cons], ?_, ?_⟩
    · intro s hs
      rcases List.mem_singleton.mp hs with rfl
      simp [List.filter_cons]
    · intro e he
      rcases List.mem_singleton.mp he with rfl
      simp [List.filter_cons]
  · intro t h
    induction h with
    | empty => exact ⟨List.Pairwise.nil, List.Pairwise.nil⟩
    | step t date day_group exercise_name set_number weight reps rir
        muscle _ ih =>
      exact quick_log_set_preserves_unique t.1 t.2.1 t.2.2 date day_group
        exercise_name set_number weight reps rir muscle ih.1 ih.2

/-- Witness for C1's reachability part after one concrete quick-log step
from empty tables. -/
theorem quick_log_idempotent_witness :
    QLReachable (quick_log_set [] [] [] ⟨2024, 1, 8⟩ "push" "bench" 1 100
      5 none none) ∧
    SessionsUnique (quick_log_set [] [] [] ⟨2024, 1, 8⟩ "push" "bench" 1
      100 5 none none).1 ∧
    ExercisesUnique (quick_log_set [] [] [] ⟨2024, 1, 8⟩ "push" "bench" 1
      100 5 none none).2.1 :=
  have h : QLReachable (quick_log_set [] [] [] ⟨2024, 1, 8⟩ "push" "bench"
      1 100 5 none none) :=
    QLReachable.step ([], [], []) ⟨2024, 1, 8⟩ "push" "bench" 1 100 5 none
      none QLReachable.empty
  ⟨h, (quick_log_idempotent.2 _ h).1, (quick_log_idempotent.2 _ h).2⟩

end Macaroni
